import Mathlib

/-!
Verification of the statistics aggregation engine of the ThreeDiStatistics
repository (src/tools/statistics.py), via a shallow embedding in Lean.
Machine floats are idealised as rationals; Python round / int / negative
indexing are modelled explicitly.
-/

namespace ThreeDiStats

/-- Python 2 rounding of a rational to the nearest integer, halves away from
zero (the semantics of the builtin round used throughout statistics.py). -/
def pyRoundInt (y : ℚ) : ℤ :=
  if 0 ≤ y then ⌊y + 1/2⌋ else -⌊-y + 1/2⌋

/-- Python round(x, d): scale by 10^d, round half away from zero, scale back. -/
def pyRound (d : ℕ) (x : ℚ) : ℚ :=
  (pyRoundInt (x * 10 ^ d) : ℚ) / 10 ^ d

/-- Python int() applied to a number: truncation toward zero. -/
def pyInt (x : ℚ) : ℤ :=
  if 0 ≤ x then ⌊x⌋ else -⌊-x⌋

/-- Numpy / netCDF style list indexing: a negative index counts from the end
(the code indexes time step i-1, which is -1 and hence the last sample on the
first loop iteration). Out-of-range access never occurs in the modelled code. -/
def pyGet (xs : List ℚ) (i : ℤ) : ℚ :=
  if i < 0 then xs.getD (xs.length - (-i).toNat) 0 else xs.getD i.toNat 0

lemma pyRoundInt_nonneg {y : ℚ} (h : 0 ≤ y) : 0 ≤ pyRoundInt y := by
  unfold pyRoundInt
  rw [if_pos h]
  have : (0 : ℤ) ≤ ⌊y + 1/2⌋ := by
    apply Int.floor_nonneg.mpr
    linarith
  exact this

lemma pyRound_nonneg (d : ℕ) {x : ℚ} (h : 0 ≤ x) : 0 ≤ pyRound d x := by
  unfold pyRound
  apply div_nonneg
  · exact_mod_cast pyRoundInt_nonneg (by positivity)
  · positivity

/-- Rounding a nonnegative value that is at most an integer bound B stays at
most B. -/
lemma pyRound_le_intBound (d : ℕ) {x : ℚ} {B : ℤ} (hx : 0 ≤ x) (hB : x ≤ (B : ℚ)) :
    pyRound d x ≤ (B : ℚ) := by
  unfold pyRound pyRoundInt
  rw [if_pos (by positivity)]
  rw [div_le_iff₀ (by positivity)]
  have hp : (0 : ℚ) < 10 ^ d := by positivity
  have hmul : x * 10 ^ d ≤ (B : ℚ) * 10 ^ d :=
    mul_le_mul_of_nonneg_right hB (le_of_lt hp)
  have hfloor : ⌊x * 10 ^ d + 1/2⌋ ≤ B * 10 ^ d := by
    have hmono : ⌊x * 10 ^ d + 1/2⌋ ≤ ⌊((B * 10 ^ d : ℤ) : ℚ) + 1/2⌋ := by
      apply Int.floor_mono
      push_cast
      linarith
    rwa [Int.floor_int_add, show ⌊(1/2 : ℚ)⌋ = 0 by norm_num, add_zero] at hmono
  calc ((⌊x * 10 ^ d + 1/2⌋ : ℤ) : ℚ) ≤ ((B * 10 ^ d : ℤ) : ℚ) := by exact_mod_cast hfloor
    _ = (B : ℚ) * 10 ^ d := by push_cast; ring

/-- The absolute rounding error of pyRound is at most half an ulp. -/
lemma pyRound_err (d : ℕ) (x : ℚ) : |pyRound d x - x| ≤ 1 / (2 * 10 ^ d) := by
  have hp : (0 : ℚ) < 10 ^ d := by positivity
  have key : ∀ y : ℚ, |(pyRoundInt y : ℚ) - y| ≤ 1/2 := by
    intro y
    unfold pyRoundInt
    by_cases hy : 0 ≤ y
    · rw [if_pos hy]
      have h1 : (⌊y + 1/2⌋ : ℚ) ≤ y + 1/2 := Int.floor_le _
      have h2 : y + 1/2 < (⌊y + 1/2⌋ : ℚ) + 1 := Int.lt_floor_add_one _
      rw [abs_le]
      constructor <;> linarith
    · rw [if_neg hy]
      have h1 : (⌊-y + 1/2⌋ : ℚ) ≤ -y + 1/2 := Int.floor_le _
      have h2 : -y + 1/2 < (⌊-y + 1/2⌋ : ℚ) + 1 := Int.lt_floor_add_one _
      rw [abs_le]
      push_cast
      constructor <;> linarith
  have hx := key (x * 10 ^ d)
  unfold pyRound
  have heq : (pyRoundInt (x * 10 ^ d) : ℚ) / 10 ^ d - x
      = ((pyRoundInt (x * 10 ^ d) : ℚ) - x * 10 ^ d) / 10 ^ d := by
    field_simp
    ring
  rw [heq, abs_div, abs_of_pos hp, div_le_div_iff₀ hp (by positivity)]
  calc |(pyRoundInt (x * 10 ^ d) : ℚ) - x * 10 ^ d| * (2 * 10 ^ d)
      ≤ (1/2) * (2 * 10 ^ d) := by
        apply mul_le_mul_of_nonneg_right hx (by positivity)
    _ = 1 * 10 ^ d := by ring

/-!
Flowline statistics loop (calc_flowline_statistics, statistics.py lines
392-429), branch where none of the aggregates q_cum / q_cum_positive /
q_cum_negative is exposed, so qcum, qcum_pos and qcum_neg all start at zero
and are step-accumulated.
-/

/-- Running state of the flowline time loop: previous timestamp and the three
cumulative discharge accumulators. -/
structure FLState where
  prev : ℚ
  qcum : ℚ
  qpos : ℚ
  qneg : ℚ
  deriving DecidableEq

/-- One iteration of the flowline time loop for one flowline, on the pair
(timestamp, discharge value used at that iteration): timestep is the elapsed
time since the previous timestamp; qcum += q * timestep,
qcum_pos += q.clip(min=0) * timestep, qcum_neg -= q.clip(max=0) * timestep. -/
def flStep (s : FLState) (tq : ℚ × ℚ) : FLState :=
  let timestep := tq.1 - s.prev
  { prev := tq.1
    qcum := s.qcum + tq.2 * timestep
    qpos := s.qpos + max tq.2 0 * timestep
    qneg := s.qneg - min tq.2 0 * timestep }

/-- The whole flowline time loop for one flowline: iterate over the enumerated
timestamps; the discharge is read at time-step index i - 1 (numpy indexing, so
the last sample on the first iteration), and prev_timestamp starts at 0. -/
def flLoop (ts qs : List ℚ) : FLState :=
  (ts.enum.map (fun p => (p.2, pyGet qs ((p.1 : ℤ) - 1)))).foldl flStep ⟨0, 0, 0, 0⟩

lemma flStep_conserve (s : FLState) (tq : ℚ × ℚ)
    (h : s.qpos - s.qneg = s.qcum) :
    (flStep s tq).qpos - (flStep s tq).qneg = (flStep s tq).qcum := by
  simp only [flStep]
  have hmm : max tq.2 0 + min tq.2 0 = tq.2 := by
    rcases le_total tq.2 0 with h1 | h1
    · rw [max_eq_right h1, min_eq_left h1, zero_add]
    · rw [max_eq_left h1, min_eq_right h1, add_zero]
  have hmul : max tq.2 0 * (tq.1 - s.prev) + min tq.2 0 * (tq.1 - s.prev)
      = tq.2 * (tq.1 - s.prev) := by
    rw [← add_mul, hmm]
  linarith

lemma foldl_flStep_conserve (l : List (ℚ × ℚ)) :
    ∀ s : FLState, s.qpos - s.qneg = s.qcum →
      (l.foldl flStep s).qpos - (l.foldl flStep s).qneg = (l.foldl flStep s).qcum := by
  induction l with
  | nil => intro s h; simpa using h
  | cons a l ih =>
      intro s h
      simp only [List.foldl_cons]
      exact ih _ (flStep_conserve s a h)

lemma foldl_flStep_qneg_nonneg (l : List (ℚ × ℚ)) :
    ∀ s : FLState, List.Chain (· ≤ ·) s.prev (l.map Prod.fst) → 0 ≤ s.qneg →
      0 ≤ (l.foldl flStep s).qneg := by
  induction l with
  | nil => intro s _ h; simpa using h
  | cons a l ih =>
      intro s hchain hneg
      simp only [List.map_cons, List.chain_cons] at hchain
      simp only [List.foldl_cons]
      apply ih
      · exact hchain.2
      · have hdt : 0 ≤ a.1 - s.prev := by linarith [hchain.1]
        have hq : min a.2 0 ≤ 0 := min_le_right _ _
        simp only [flStep]
        nlinarith

lemma flLoop_map_fst (ts qs : List ℚ) :
    (ts.enum.map (fun p => (p.2, pyGet qs ((p.1 : ℤ) - 1)))).map Prod.fst = ts := by
  rw [List.map_map]
  exact List.enum_map_snd ts

/-- C5: for the step-accumulated branch, the positive-only and negative-only
partial sums differ exactly by the total cumulative discharge, and after the
single write-time rounding to 3 decimals the identity holds within 3/2000. -/
theorem cum_discharge_conservation (ts qs : List ℚ) :
    (flLoop ts qs).qpos - (flLoop ts qs).qneg = (flLoop ts qs).qcum ∧
    |pyRound 3 (flLoop ts qs).qpos - pyRound 3 (flLoop ts qs).qneg
      - pyRound 3 (flLoop ts qs).qcum| ≤ 3 / 2000 := by
  have hexact : (flLoop ts qs).qpos - (flLoop ts qs).qneg = (flLoop ts qs).qcum := by
    unfold flLoop
    exact foldl_flStep_conserve _ _ (by norm_num)
  refine ⟨hexact, ?_⟩
  set s := flLoop ts qs with hs
  have e1 := pyRound_err 3 s.qpos
  have e2 := pyRound_err 3 s.qneg
  have e3 := pyRound_err 3 s.qcum
  have hex : s.qpos - s.qneg = s.qcum := hexact
  rw [abs_le] at e1 e2 e3 ⊢
  norm_num at e1 e2 e3 ⊢
  constructor <;> linarith

/-- C10: when q_cum_negative is step-accumulated and the time axis (from the
implicit initial previous timestamp 0) is monotone, the accumulator
cum_discharge_negative is non-negative: the negative-only partial sum is
stored as a negated, positive magnitude. The written, rounded value is
non-negative too. -/
theorem cum_discharge_negative_nonneg (ts qs : List ℚ)
    (h : List.Chain (· ≤ ·) 0 ts) :
    0 ≤ (flLoop ts qs).qneg ∧ 0 ≤ pyRound 3 (flLoop ts qs).qneg := by
  have h0 : 0 ≤ (flLoop ts qs).qneg := by
    apply foldl_flStep_qneg_nonneg
    · rw [flLoop_map_fst]
      exact h
    · norm_num
  exact ⟨h0, pyRound_nonneg 3 h0⟩

/-- Witness for C10 at a concrete run: timestamps [10, 20] s, discharge
samples [-5, 3]. -/
theorem cum_discharge_negative_nonneg_witness :
    0 ≤ (flLoop [10, 20] [-5, 3]).qneg ∧ 0 ≤ pyRound 3 (flLoop [10, 20] [-5, 3]).qneg :=
  cum_discharge_negative_nonneg [10, 20] [-5, 3] (by norm_num [List.chain_cons])

/-!
Running maximum of head difference across a flowline (statistics.py lines
420-429): at each time step the endpoint water levels are taken from a masked
array, and np.copyto writes max(dh_max, |h_start - h_end|) only where neither
endpoint is masked. A masked sample is modelled as Option.none.
-/

/-- One head-difference update for one flowline: the running maximum is
replaced by max(dh, |a - b|) only when both endpoint samples are unmasked,
and left untouched otherwise (the copyto where-clause). -/
def dhStep (dh : ℚ) (p : Option ℚ × Option ℚ) : ℚ :=
  match p with
  | (some a, some b) => max dh |a - b|
  | _ => dh

/-- Folding the head-difference update over the per-step pairs of endpoint
samples of one flowline. -/
def dhFold (dh : ℚ) (steps : List (Option ℚ × Option ℚ)) : ℚ :=
  steps.foldl dhStep dh

/-- The steps at which both endpoints are unmasked, with the masks stripped. -/
def unmaskedSteps (steps : List (Option ℚ × Option ℚ)) : List (ℚ × ℚ) :=
  steps.filterMap (fun p =>
    match p with
    | (some a, some b) => some (a, b)
    | _ => none)

/-- Head-difference folding over fully unmasked samples. -/
def dhFoldU (dh : ℚ) (steps : List (ℚ × ℚ)) : ℚ :=
  steps.foldl (fun d p => max d |p.1 - p.2|) dh

lemma dhStep_mask_left (dh : ℚ) (e : Option ℚ) : dhStep dh (none, e) = dh := by
  cases e <;> rfl

lemma dhStep_mask_right (dh : ℚ) (e : Option ℚ) : dhStep dh (e, none) = dh := by
  cases e <;> rfl

lemma dhFold_eq_unmasked (steps : List (Option ℚ × Option ℚ)) :
    ∀ dh : ℚ, dhFold dh steps = dhFoldU dh (unmaskedSteps steps) := by
  induction steps with
  | nil => intro dh; rfl
  | cons p rest ih =>
      intro dh
      rcases p with ⟨a, b⟩
      rcases a with _ | a <;> rcases b with _ | b
      · simpa [dhFold, dhFoldU, unmaskedSteps, List.filterMap_cons, dhStep] using ih dh
      · simpa [dhFold, dhFoldU, unmaskedSteps, List.filterMap_cons, dhStep] using ih dh
      · simpa [dhFold, dhFoldU, unmaskedSteps, List.filterMap_cons, dhStep] using ih dh
      · simpa [dhFold, dhFoldU, unmaskedSteps, List.filterMap_cons, dhStep]
          using ih (max dh |a - b|)

/-- C4: a time step at which either endpoint sample of a flowline is masked
leaves that flowline's running maximum head difference unchanged, and the
remaining (unmasked) steps update it exactly as if the masked step had never
occurred: folding over any step list equals folding over its unmasked steps
only. -/
theorem masked_head_difference (d : ℚ) (pre post : List (Option ℚ × Option ℚ))
    (e : Option ℚ) (steps : List (Option ℚ × Option ℚ)) :
    dhFold d (pre ++ (none, e) :: post) = dhFold d (pre ++ post) ∧
    dhFold d (pre ++ (e, none) :: post) = dhFold d (pre ++ post) ∧
    dhFold d steps = dhFoldU d (unmaskedSteps steps) := by
  refine ⟨?_, ?_, dhFold_eq_unmasked steps d⟩
  · simp only [dhFold, List.foldl_append, List.foldl_cons, dhStep_mask_left]
  · simp only [dhFold, List.foldl_append, List.foldl_cons, dhStep_mask_right]

/-!
Pump statistics loop (get_pump_attributes_and_statistics, statistics.py lines
670-693), branch where the aggregate q_pump_cum is not exposed, so q_cum
starts as an all-zero array. The loop body reads q = q_pump at index i - 1
and then executes the line q_cum += q_cum * timestep exactly as written in
the source (the accumulator is added to itself; the freshly read q is used
only for q_max).
-/

/-- Running state of the pump time loop. -/
structure PumpState where
  prev : ℚ
  qcum : ℚ
  qmax : ℚ
  deriving DecidableEq

/-- One iteration of the pump time loop on the enumerated timestamp (i, t):
timestep = t - prev; q = q_pump sample at index i - 1;
q_cum += q_cum * timestep; q_max = max(q_max, q). -/
def pumpStep (qs : List ℚ) (s : PumpState) (it : ℕ × ℚ) : PumpState :=
  let timestep := it.2 - s.prev
  let q := pyGet qs ((it.1 : ℤ) - 1)
  { prev := it.2
    qcum := s.qcum + s.qcum * timestep
    qmax := max s.qmax q }

/-- The whole pump time loop, for one pump with discharge series qs over
timestamps ts, starting from q_cum = 0 (aggregate unavailable), q_max = 0. -/
def pumpLoop (ts qs : List ℚ) : PumpState :=
  ts.enum.foldl (pumpStep qs) ⟨0, 0, 0⟩

/-- The accumulation the claim and the spec describe for the fallback path:
left-step integration, summing the pump discharge sample at each step times
the elapsed time since the previous timestamp, with the timestamp before the
first taken as 0. This is the spec-side definition used to exhibit the
divergence; the code-side definition is pumpLoop. -/
def claimPumpCum (ts qs : List ℚ) : ℚ :=
  ((ts.zip qs).foldl (fun s tq => (tq.1, s.2 + tq.2 * (tq.1 - s.1))) ((0 : ℚ), (0 : ℚ))).2

lemma foldl_pumpStep_qcum_zero (qs : List ℚ) (l : List (ℕ × ℚ)) :
    ∀ s : PumpState, s.qcum = 0 → (l.foldl (pumpStep qs) s).qcum = 0 := by
  induction l with
  | nil => intro s h; simpa using h
  | cons a l ih =>
      intro s h
      simp only [List.foldl_cons]
      apply ih
      simp only [pumpStep, h]
      ring

/-- C1 (code bug): the source line q_cum += q_cum * timestep keeps the
step-accumulated pump cumulative discharge at zero for every pump and every
run, so the written value is 0; the left-step accumulation of the raw pump
discharge series that the claim specifies gives 30 on the concrete run with
timestamps [0, 10] and pump discharge samples [2, 3], and 0 is not 30. -/
theorem pump_cum_accumulation_bug :
    (∀ ts qs : List ℚ, (pumpLoop ts qs).qcum = 0) ∧
    pyRound 3 (pumpLoop [0, 10] [2, 3]).qcum = 0 ∧
    claimPumpCum [0, 10] [2, 3] = 30 ∧
    (0 : ℚ) ≠ 30 := by
  have hzero : ∀ ts qs : List ℚ, (pumpLoop ts qs).qcum = 0 := fun ts qs =>
    foldl_pumpStep_qcum_zero qs ts.enum ⟨0, 0, 0⟩ rfl
  refine ⟨hzero, ?_, by norm_num [claimPumpCum], by norm_num⟩
  rw [hzero]
  norm_num [pyRound, pyRoundInt]

/-!
Manhole statistics loop (get_manhole_attributes_and_statistics, statistics.py
lines 250-311), branch where the aggregate s1_max is not exposed, for a single
mapped manhole. The loop reads the water level at time-step index i - 1
(numpy indexing: the last sample on the first iteration), accumulates
t_water_surface by the elapsed time whenever the sample is at or above the
surface level, and tracks the running maximum from an initial -9999. The end
water level is read directly at the last time step.
-/

/-- Running state of the manhole time loop for one manhole. -/
structure MNState where
  prev : ℚ
  hmax : ℚ
  tws : ℚ
  deriving DecidableEq

/-- One iteration of the manhole time loop on the enumerated timestamp (i, t):
timestep = t - prev; h = s1 sample at index i - 1; h_max = max(h_max, h);
t_water_surface += timestep where h >= surface_level. -/
def mnStep (surface : ℚ) (series : List ℚ) (s : MNState) (it : ℕ × ℚ) : MNState :=
  let timestep := it.2 - s.prev
  let h := pyGet series ((it.1 : ℤ) - 1)
  { prev := it.2
    hmax := max s.hmax h
    tws := if surface ≤ h then s.tws + timestep else s.tws }

/-- The whole manhole time loop over the enumerated timestamps. -/
def mnLoop (surface : ℚ) (ts series : List ℚ) : MNState :=
  ts.enum.foldl (mnStep surface series) ⟨0, -9999, 0⟩

/-- The three fields of the written manhole statistics row that the duration
and water-level claims are about. -/
structure ManholeRow where
  duration_water_on_surface : ℚ
  max_waterlevel : ℚ
  end_waterlevel : ℚ
  deriving DecidableEq

/-- The manhole statistics row as written: duration_water_on_surface is the
accumulated seconds divided by 3600 and rounded to 3 decimals at write time;
max_waterlevel is the running maximum rounded to 3 decimals; end_waterlevel
is the sample at the last time step rounded to 3 decimals. -/
def manholeRow (surface : ℚ) (ts series : List ℚ) : ManholeRow :=
  let st := mnLoop surface ts series
  let hEnd := pyGet series ((ts.length : ℤ) - 1)
  { duration_water_on_surface := pyRound 3 (st.tws / 3600)
    max_waterlevel := pyRound 3 st.hmax
    end_waterlevel := pyRound 3 hEnd }

/-- C7 counterexample: on the run with timestamps [0, 10, 20] s, surface
level 1.0 and water levels [0.5, 1.5, 0.8], the duration written to the row
is 0.003 h (the single write-time rounding of 10/3600 to 3 decimals), which
is not equal to 10/3600 h as the claim states it. -/
lemma mnLoop_scenario :
    mnLoop 1 [0, 10, 20] [1/2, 3/2, 4/5] = ⟨20, 3/2, 10⟩ := by
  norm_num [mnLoop, List.enum, List.enumFrom, mnStep, pyGet, max_def]

theorem manhole_scenario_duration_not_exact :
    (manholeRow 1 [0, 10, 20] [1/2, 3/2, 4/5]).duration_water_on_surface = 3/1000 ∧
    (3/1000 : ℚ) ≠ 10/3600 := by
  constructor
  · show pyRound 3 ((mnLoop 1 [0, 10, 20] [1/2, 3/2, 4/5]).tws / 3600) = 3/1000
    rw [mnLoop_scenario]
    norm_num [pyRound, pyRoundInt]
  · norm_num

/-- C7 amended: on that run the accumulated time on surface is exactly 10 s
(only the step ending at t = 20 counts), so the row is written with
duration_water_on_surface = round(10/3600, 3) = 0.003, max_waterlevel = 1.5
and end_waterlevel = 0.8. -/
theorem manhole_scenario_row :
    (mnLoop 1 [0, 10, 20] [1/2, 3/2, 4/5]).tws = 10 ∧
    (manholeRow 1 [0, 10, 20] [1/2, 3/2, 4/5]).duration_water_on_surface
      = pyRound 3 (10/3600) ∧
    pyRound 3 ((10 : ℚ)/3600) = 3/1000 ∧
    (manholeRow 1 [0, 10, 20] [1/2, 3/2, 4/5]).max_waterlevel = 3/2 ∧
    (manholeRow 1 [0, 10, 20] [1/2, 3/2, 4/5]).end_waterlevel = 4/5 := by
  refine ⟨by rw [mnLoop_scenario], ?_, ?_, ?_, ?_⟩
  · show pyRound 3 ((mnLoop 1 [0, 10, 20] [1/2, 3/2, 4/5]).tws / 3600) = pyRound 3 (10/3600)
    rw [mnLoop_scenario]
  · norm_num [pyRound, pyRoundInt]
  · show pyRound 3 (mnLoop 1 [0, 10, 20] [1/2, 3/2, 4/5]).hmax = 3/2
    rw [mnLoop_scenario]
    norm_num [pyRound, pyRoundInt]
  · show pyRound 3 (pyGet [1/2, 3/2, 4/5] (([0, 10, 20].length : ℤ) - 1)) = 4/5
    norm_num [pyGet, pyRound, pyRoundInt, show Int.toNat 2 = 2 from rfl, List.getD]

/-!
Filling percentages. For manholes (statistics.py lines 307-310) the filling
is computed directly, without clipping and without null guards:
100 * (level - bottom_level) / (surface_level - bottom_level), rounded to 1
decimal (a zero denominator would raise ZeroDivisionError). For pipes the
local helper get_filling (lines 591-602) returns None when any input is None,
clips each end filling into [0, 1], averages the two ends and rounds the
percentage to 3 decimals; a zero profile height raises ZeroDivisionError,
modelled as Except.error.
-/

/-- Manhole filling percentage exactly as written on the row (used for both
max_filling with h_max and end_filling with h_end): no clipping, no null
handling; a zero level range raises. -/
def manholeFilling (level bottom surface : ℚ) : Except Unit ℚ :=
  if surface - bottom = 0 then .error ()
  else .ok (pyRound 1 (100 * (level - bottom) / (surface - bottom)))

/-- The helper get_filling of calc_pipe_and_weir_statistics, translated
clause by clause: None propagation first, then the two clipped end fillings,
their average as a percentage, rounded to 3 decimals. Division by a zero
profile height raises. -/
def get_filling (startLevel endLevel startInvert endInvert profileHeight : Option ℚ) :
    Except Unit (Option ℚ) :=
  match startLevel, endLevel, startInvert, endInvert, profileHeight with
  | some sl, some el, some si, some ei, some ph =>
      if ph = 0 then .error ()
      else
        let fillStart := max 0 (min 1 ((sl - si) / ph))
        let fillEnd := max 0 (min 1 ((el - ei) / ph))
        .ok (some (pyRound 3 (100 * (fillStart + fillEnd) / 2)))
  | _, _, _, _, _ => .ok none

/-- Maximum hydraulic gradient of a pipe (statistics.py lines 605-608): set
only when the flowline length is known and positive and the maximum head
difference is known; otherwise the column keeps its null value. -/
def maxHydroGradient (absLength maxHead : Option ℚ) : Option ℚ :=
  match absLength, maxHead with
  | some len, some dh => if 0 < len then some (pyRound 3 (100 * (dh / len))) else none
  | _, _ => none

/-- Weir percentage-of-maximum volume (statistics.py lines 638-643): the
cumulative discharge divided by the network-wide maximum, as a rounded
percentage; a zero maximum raises ZeroDivisionError. -/
def weirPercVolume (cum maxCum : ℚ) : Except Unit ℚ :=
  if maxCum = 0 then .error ()
  else .ok (pyRound 2 (100 * cum / maxCum))

/-- C3 counterexample: a manhole with bottom level 0, surface level 1 and
maximum water level 2 gets max_filling = 200 written to its row: the value is
neither null nor within [0, 100]. -/
lemma manholeFilling_two_hundred : manholeFilling 2 0 1 = .ok 200 := by
  norm_num [manholeFilling, pyRound, pyRoundInt]

theorem manhole_filling_out_of_bounds :
    manholeFilling 2 0 1 = .ok 200 ∧ ¬ ((200 : ℚ) ≤ 100) := by
  exact ⟨manholeFilling_two_hundred, by norm_num⟩

/-- C3 amended: every filling percentage produced by get_filling (the pipe
max_filling and end_filling) is null or lies in [0, 100]; manhole filling
percentages are computed without clipping or null guards and can exceed 100
(manholeFilling gives 200 on water level 2, bottom 0, surface 1). -/
theorem pipe_filling_bounded (sl el si ei ph : Option ℚ) (r : ℚ)
    (h : get_filling sl el si ei ph = .ok (some r)) :
    (0 ≤ r ∧ r ≤ 100) ∧ manholeFilling 2 0 1 = .ok 200 := by
  refine ⟨?_, manholeFilling_two_hundred⟩
  rcases sl with _ | sl <;> rcases el with _ | el <;> rcases si with _ | si <;>
    rcases ei with _ | ei <;> rcases ph with _ | ph <;>
    simp only [get_filling] at h
  all_goals try exact absurd h (by simp)
  by_cases hz : ph = 0
  · rw [if_pos hz] at h
    exact absurd h (by simp)
  · rw [if_neg hz] at h
    simp only [Except.ok.injEq, Option.some.injEq] at h
    subst h
    have h1 : (0 : ℚ) ≤ max 0 (min 1 ((sl - si) / ph)) := le_max_left _ _
    have h2 : max 0 (min 1 ((sl - si) / ph)) ≤ 1 :=
      max_le (by norm_num) (min_le_left _ _)
    have h3 : (0 : ℚ) ≤ max 0 (min 1 ((el - ei) / ph)) := le_max_left _ _
    have h4 : max 0 (min 1 ((el - ei) / ph)) ≤ 1 :=
      max_le (by norm_num) (min_le_left _ _)
    constructor
    · apply pyRound_nonneg
      nlinarith
    · have := pyRound_le_intBound 3 (x := 100 * (max 0 (min 1 ((sl - si) / ph))
        + max 0 (min 1 ((el - ei) / ph))) / 2) (B := 100) (by nlinarith) (by push_cast; nlinarith)
      exact_mod_cast this

/-- Witness for C3 at concrete pipe data: start level 2, end level 3, invert
levels 1, profile height 4 gives the in-range filling 37.5. -/
theorem pipe_filling_bounded_witness :
    ((0 ≤ (75/2 : ℚ) ∧ (75/2 : ℚ) ≤ 100) ∧ manholeFilling 2 0 1 = .ok 200) :=
  pipe_filling_bounded (some 2) (some 3) (some 1) (some 1) (some 4) (75/2)
    (by norm_num [get_filling, pyRound, pyRoundInt, min_def, max_def])

/-- C6 counterexample: get_filling with a zero profile height (all other
inputs known) raises a ZeroDivisionError instead of writing null. -/
theorem filling_zero_height_raises :
    get_filling (some 2) (some 2) (some 1) (some 1) (some 0) = .error () := by
  norm_num [get_filling]

/-- C6 amended: null inputs make the filling ratio null, and a null or
non-positive length (or null head) makes the hydraulic gradient null, without
raising; but a zero profile height in the filling ratio and a zero
network-wide maximum in the weir percentage-of-maximum raise a
division-by-zero error rather than being written as null (and none of the
defined cases is coerced to zero by the guards). -/
theorem undefined_derived_values (sl el si ei ph : Option ℚ)
    (hnull : sl = none ∨ el = none ∨ si = none ∨ ei = none ∨ ph = none) :
    get_filling sl el si ei ph = .ok none ∧
    (∀ dh : Option ℚ, maxHydroGradient none dh = none) ∧
    (∀ len : Option ℚ, maxHydroGradient len none = none) ∧
    (∀ len dh : ℚ, len ≤ 0 → maxHydroGradient (some len) (some dh) = none) ∧
    get_filling (some 2) (some 2) (some 1) (some 1) (some 0) = .error () ∧
    (∀ cum : ℚ, weirPercVolume cum 0 = .error ()) := by
  refine ⟨?_, ?_, ?_, ?_, by norm_num [get_filling], ?_⟩
  · rcases sl with _ | sl <;> rcases el with _ | el <;> rcases si with _ | si <;>
      rcases ei with _ | ei <;> rcases ph with _ | ph <;> first
      | rfl
      | · exfalso
          rcases hnull with h | h | h | h | h <;> exact Option.noConfusion h
  · intro dh; rfl
  · intro len; cases len <;> rfl
  · intro len dh hlen
    simp only [maxHydroGradient]
    rw [if_neg (not_lt.mpr hlen)]
  · intro cum
    simp [weirPercVolume]

/-- Witness for C6 at a concrete null input: a null start level yields a null
filling, the degenerate gradients are null, the zero divisions raise. -/
theorem undefined_derived_values_witness :
    get_filling none (some 1) (some 1) (some 1) (some 1) = .ok none ∧
    (∀ dh : Option ℚ, maxHydroGradient none dh = none) ∧
    (∀ len : Option ℚ, maxHydroGradient len none = none) ∧
    (∀ len dh : ℚ, len ≤ 0 → maxHydroGradient (some len) (some dh) = none) ∧
    get_filling (some 2) (some 2) (some 1) (some 1) (some 0) = .error () ∧
    (∀ cum : ℚ, weirPercVolume cum 0 = .error ()) :=
  undefined_derived_values none (some 1) (some 1) (some 1) (some 1) (Or.inl rfl)

/-!
Missing-mapping handling. The manhole loop (statistics.py lines 218-224)
checks membership in the result mapping, logs a warning and skips the element
when absent. The pipe loop (lines 535-540) logs a warning when the pipe id is
absent from the mapping, but then performs the unguarded dictionary access
pipes_mapping[pipe.id] anyway, which raises KeyError and aborts the run. The
weir loop (lines 573-574) performs the unguarded access weirs_mapping[weir.id]
with no membership check and no warning at all. Warnings are modelled as a
list of the ids warned about; a KeyError is modelled as Except.error carrying
the missing id.
-/

/-- Dictionary lookup id -> result index built from the Flowline (or Node)
query. -/
def lookupMapping (m : List (ℤ × ℤ)) (i : ℤ) : Option ℤ :=
  (m.find? (fun p => p.1 == i)).map Prod.snd

/-- One iteration of the manhole attribute loop: if the connection node id is
in the mapping, keep the element, else warn and skip; the run continues. -/
def manholeLoopStep (m : List (ℤ × ℤ)) (s : List ℤ × List ℤ) (i : ℤ) : List ℤ × List ℤ :=
  match lookupMapping m i with
  | some idx => (s.1, s.2 ++ [idx])
  | none => (s.1 ++ [i], s.2)

/-- The manhole attribute loop over the model manholes: returns the warned
ids and the kept result indices. -/
def processManholes (m : List (ℤ × ℤ)) (ids : List ℤ) : List ℤ × List ℤ :=
  ids.foldl (manholeLoopStep m) ([], [])

/-- One iteration of the pipe loop: a missing id appends a warning, but the
following unguarded mapping access raises KeyError, aborting the run. -/
def pipeLoopStep (m : List (ℤ × ℤ)) (s : Except ℤ (List ℤ × List ℤ)) (i : ℤ) :
    Except ℤ (List ℤ × List ℤ) :=
  match s with
  | .error e => .error e
  | .ok (warns, rows) =>
      let warns2 := if lookupMapping m i = none then warns ++ [i] else warns
      match lookupMapping m i with
      | some idx => .ok (warns2, rows ++ [idx])
      | none => .error i

/-- The pipe statistics loop over the model pipes joined with their profiles:
warned ids and kept indices, or the KeyError id. -/
def processPipes (m : List (ℤ × ℤ)) (ids : List ℤ) : Except ℤ (List ℤ × List ℤ) :=
  ids.foldl (pipeLoopStep m) (.ok ([], []))

/-- One iteration of the weir loop: the unguarded access
weirs_mapping[weir.id], with no membership check and no warning. -/
def weirLoopStep (m : List (ℤ × ℤ)) (s : Except ℤ (List ℤ)) (i : ℤ) : Except ℤ (List ℤ) :=
  match s with
  | .error e => .error e
  | .ok rows =>
      match lookupMapping m i with
      | some idx => .ok (rows ++ [idx])
      | none => .error i

/-- The weir statistics loop over the model weirs. -/
def processWeirs (m : List (ℤ × ℤ)) (ids : List ℤ) : Except ℤ (List ℤ) :=
  ids.foldl (weirLoopStep m) (.ok [])

/-- C2 (code bug): with an empty result mapping, a model pipe with id 7
makes the pipe loop raise KeyError (after logging its warning) and a model
weir with id 7 makes the weir loop raise KeyError without any warning, so the
run aborts instead of skipping the element; only the manhole loop warns,
skips and continues as the claim describes. -/
theorem missing_mapping_aborts_run :
    processPipes [] [7] = .error 7 ∧
    processWeirs [] [7] = .error 7 ∧
    processManholes [] [7] = ([7], []) ∧
    processManholes [(3, 0)] [3, 7] = ([7], [0]) := by
  refine ⟨rfl, rfl, rfl, rfl⟩

/-!
Provenance records. set_stat_source (statistics.py lines 340-358) upserts a
row (table, field, from_agg, input_param, timestep); every call site passes
timestep = int(timestamps[-1] / (len(timestamps) - 1)) when the field was
step-accumulated and omits it (None) when it came from a precomputed
aggregate. The calls are modelled as the lists of rows each statistics
function writes, parametrised by the aggregate-availability flags.
-/

/-- One upserted provenance row, as passed to set_stat_source. -/
structure StatSourceCall where
  table : String
  field : String
  from_agg : Bool
  input_param : String
  timestep : Option ℤ
  deriving DecidableEq

/-- The average time step recorded for step-accumulated fields:
int(timestamps[-1] / (len(timestamps) - 1)), Python int truncation. -/
def avgTimestep (ts : List ℚ) : ℤ :=
  pyInt (ts.getLastD 0 / ((ts.length : ℚ) - 1))

/-- The set_stat_source calls of get_manhole_attributes_and_statistics
(lines 322-336), given whether the s1_max aggregate was available. -/
def manholeStatCalls (aggHMax : Bool) (a : ℤ) : List StatSourceCall :=
  [⟨"manhole_stats", "duration_water_on_surface", false, "s1", some a⟩,
   ⟨"manhole_stats", "end_waterlevel", false, "s1", some a⟩,
   ⟨"manhole_stats", "end_filling", false, "s1", some a⟩] ++
  (if aggHMax then
    [⟨"manhole_stats", "max_waterlevel", true, "s1_max", none⟩,
     ⟨"manhole_stats", "max_waterdepth_surface", true, "s1_max", none⟩,
     ⟨"manhole_stats", "max_filling", true, "s1_max", none⟩]
  else
    [⟨"manhole_stats", "max_waterlevel", false, "s1", some a⟩,
     ⟨"manhole_stats", "max_waterdepth_surface", false, "s1", some a⟩,
     ⟨"manhole_stats", "max_filling", false, "s1", some a⟩])

/-- The set_stat_source calls of calc_flowline_statistics (lines 470-515),
given the availability of q_cum, q_cum_positive and q_cum_negative. -/
def flowlineStatCalls (aggQCum aggQCumPos aggQCumNeg : Bool) (a : ℤ) : List StatSourceCall :=
  [⟨"flowline_stats", "max_discharge", false, "q", some a⟩,
   ⟨"flowline_stats", "end_discharge", false, "q", some a⟩,
   ⟨"flowline_stats", "max_velocity", false, "u1", some a⟩,
   ⟨"flowline_stats", "end_velocity", false, "u1", some a⟩,
   ⟨"flowline_stats", "max_waterlevel_head", false, "s1", some a⟩,
   ⟨"flowline_stats", "max_waterlevel_start", false, "s1", some a⟩,
   ⟨"flowline_stats", "max_waterlevel_end", false, "s1", some a⟩,
   ⟨"flowline_stats", "end_waterlevel_start", false, "s1", some a⟩,
   ⟨"flowline_stats", "end_waterlevel_end", false, "s1", some a⟩,
   ⟨"pipe_stats", "max_filling", false, "s1", some a⟩,
   ⟨"pipe_stats", "end_filling", false, "s1", some a⟩,
   ⟨"pipe_stats", "max_hydro_gradient", false, "s1", some a⟩,
   ⟨"weir_stats", "max_overfall_height", false, "s1", some a⟩] ++
  (if aggQCum then
    [⟨"flowline_stats", "cum_discharge", true, "q_cum", none⟩,
     ⟨"weir_stats", "perc_volume", true, "q_cum", none⟩]
  else
    [⟨"flowline_stats", "cum_discharge", false, "q", some a⟩,
     ⟨"weir_stats", "perc_volume", false, "q", some a⟩]) ++
  (if aggQCumPos then
    [⟨"flowline_stats", "cum_discharge_positive", true, "q_cum_pos", none⟩,
     ⟨"weir_stats", "perc_volume_positive", true, "q_cum_pos", none⟩]
  else
    [⟨"flowline_stats", "cum_discharge_positive", false, "q", some a⟩,
     ⟨"weir_stats", "perc_volume_positive", false, "q", some a⟩]) ++
  (if aggQCumNeg then
    [⟨"flowline_stats", "cum_discharge_negative", true, "q_cum_neg", none⟩,
     ⟨"weir_stats", "perc_volume_negative", true, "q_cum_neg", none⟩]
  else
    [⟨"flowline_stats", "cum_discharge_negative", false, "q", some a⟩,
     ⟨"weir_stats", "perc_volume_negative", false, "q", some a⟩])

/-- The set_stat_source calls of get_pump_attributes_and_statistics
(lines 724-739), given the availability of q_pump_cum. -/
def pumpStatCalls (aggQPumpCum : Bool) (a : ℤ) : List StatSourceCall :=
  [⟨"pumpline_stats", "end_discharge", false, "q_pump", some a⟩,
   ⟨"pumpline_stats", "max_discharge", false, "q_pump", some a⟩,
   ⟨"pumpline_stats", "perc_end_discharge", false, "q_pump", some a⟩] ++
  (if aggQPumpCum then
    [⟨"pumpline_stats", "cum_discharge", true, "q_pump_cum", none⟩,
     ⟨"pumpline_stats", "duration_pump_on_max", true, "q_pump_cum", none⟩,
     ⟨"pumpline_stats", "perc_max_discharge", true, "q_pump_cum", none⟩]
  else
    [⟨"pumpline_stats", "cum_discharge", false, "q_pump", some a⟩,
     ⟨"pumpline_stats", "duration_pump_on_max", false, "q_pump", some a⟩,
     ⟨"pumpline_stats", "perc_max_discharge", false, "q_pump", some a⟩])

/-- All provenance rows one run writes, for the given aggregate flags. -/
def allStatCalls (b1 b2 b3 b4 b5 : Bool) (a : ℤ) : List StatSourceCall :=
  manholeStatCalls b1 a ++ flowlineStatCalls b2 b3 b4 a ++ pumpStatCalls b5 a

/-- The discipline every single row obeys: aggregate rows carry no time step,
step-accumulated rows carry exactly the average step. -/
def TsOk (a : ℤ) (c : StatSourceCall) : Prop :=
  (c.from_agg = true → c.timestep = none) ∧
  (c.from_agg = false → c.timestep = some a)

lemma manholeStatCalls_ok (b : Bool) (a : ℤ) :
    ∀ c ∈ manholeStatCalls b a, TsOk a c := by
  intro c hc
  cases b <;> simp only [manholeStatCalls, if_true, if_false, Bool.false_eq_true,
      List.mem_append, List.mem_cons, List.not_mem_nil, or_false] at hc <;>
    rcases hc with (rfl | rfl | rfl) | (rfl | rfl | rfl) <;>
    exact ⟨by simp, by simp⟩

lemma flowlineStatCalls_ok (b2 b3 b4 : Bool) (a : ℤ) :
    ∀ c ∈ flowlineStatCalls b2 b3 b4 a, TsOk a c := by
  intro c hc
  cases b2 <;> cases b3 <;> cases b4 <;>
    simp only [flowlineStatCalls, if_true, if_false, Bool.false_eq_true,
      List.mem_append, List.mem_cons, List.not_mem_nil, or_false] at hc <;>
    rcases hc with (((rfl | rfl | rfl | rfl | rfl | rfl | rfl | rfl | rfl | rfl | rfl | rfl | rfl)
      | (rfl | rfl)) | (rfl | rfl)) | (rfl | rfl) <;>
    exact ⟨by simp, by simp⟩

lemma pumpStatCalls_ok (b : Bool) (a : ℤ) :
    ∀ c ∈ pumpStatCalls b a, TsOk a c := by
  intro c hc
  cases b <;> simp only [pumpStatCalls, if_true, if_false, Bool.false_eq_true,
      List.mem_append, List.mem_cons, List.not_mem_nil, or_false] at hc <;>
    rcases hc with (rfl | rfl | rfl) | (rfl | rfl | rfl) <;>
    exact ⟨by simp, by simp⟩

/-- C8 amended: for every provenance row a run writes, an aggregate-derived
field records a null time step, and a step-accumulated field records
int(final_timestamp / (step_count - 1)), the truncated average step. -/
theorem stat_source_timestep (b1 b2 b3 b4 b5 : Bool) (ts : List ℚ)
    (c : StatSourceCall) (hc : c ∈ allStatCalls b1 b2 b3 b4 b5 (avgTimestep ts)) :
    (c.from_agg = true → c.timestep = none) ∧
    (c.from_agg = false → c.timestep = some (avgTimestep ts)) := by
  simp only [allStatCalls, List.mem_append] at hc
  rcases hc with (hc | hc) | hc
  · exact manholeStatCalls_ok b1 _ c hc
  · exact flowlineStatCalls_ok b2 b3 b4 _ c hc
  · exact pumpStatCalls_ok b5 _ c hc

/-- Witness for C8 at a concrete run with timestamps [0, 10, 20]: the
step-accumulated duration row records time step 10 = int(20 / 2). -/
theorem stat_source_timestep_witness :
    (⟨"manhole_stats", "duration_water_on_surface", false, "s1",
      some (avgTimestep [0, 10, 20])⟩ : StatSourceCall).timestep
      = some (avgTimestep [0, 10, 20]) :=
  (stat_source_timestep false false false false false [0, 10, 20] _
    (by simp [allStatCalls, manholeStatCalls])).2 rfl

/-- C8 counterexample: on a run with timestamps [0, 10, 25] the recorded
average time step of a step-accumulated field is int(25 / 2) = 12, which is
not equal to the exact final_timestamp / (step_count - 1) = 12.5 that the
claim states. -/
theorem stat_source_timestep_truncated :
    avgTimestep [0, 10, 25] = 12 ∧
    (manholeStatCalls false (avgTimestep [0, 10, 25])).head?
      = some ⟨"manhole_stats", "duration_water_on_surface", false, "s1", some 12⟩ ∧
    ((12 : ℚ) ≠ 25 / 2) := by
  have h : avgTimestep [0, 10, 25] = 12 := by
    norm_num [avgTimestep, pyInt, List.getLastD]
  refine ⟨h, ?_, by norm_num⟩
  rw [h]
  rfl

/-!
Pipe profile height (calc_pipe_and_weir_statistics, statistics.py lines
541-546). The width and height columns of v2_cross_section_definition are
strings of space-separated tokens; the code takes max(s.split(' ')), which is
the Python maximum of a list of strings, i.e. the lexicographically greatest
token under string comparison. Python string split and comparison are
modelled on the character lists of the strings.
-/

/-- Python s.split(' ') on the character list: split at every single space,
keeping empty tokens; the empty string yields one empty token. -/
def splitSpaceAux : List Char → List Char → List (List Char)
  | [], acc => [acc.reverse]
  | c :: rest, acc =>
      if c = ' ' then acc.reverse :: splitSpaceAux rest []
      else splitSpaceAux rest (c :: acc)

/-- Python s.split(' ') as a list of strings. -/
def pySplit (s : String) : List String :=
  (splitSpaceAux s.data []).map List.asString

/-- Python string less-than: lexicographic comparison of the character
sequences by code point. -/
def lexLt : List Char → List Char → Bool
  | _, [] => false
  | [], _ :: _ => true
  | a :: as, b :: bs => if a < b then true else if b < a then false else lexLt as bs

/-- Python comparison s1 < s2 on strings. -/
def pyStrLt (s t : String) : Bool :=
  lexLt s.data t.data

/-- Python max() over a list of strings: keep the current value unless the
candidate is strictly greater (so ties keep the first occurrence); None
models the exception on an empty list, which cannot arise from split. -/
def pyMaxStr : List String → Option String
  | [] => none
  | x :: xs => some (xs.foldl (fun c y => if pyStrLt c y then y else c) x)

/-- The profile height recorded on the pipe statistics row: for shapes 1 and
2 with a non-null width, max(width.split(' ')); for shapes 5 and 6 with a
non-null height, max(height.split(' ')); otherwise null. -/
def profile_height (shape : Option ℤ) (width height : Option String) : Option String :=
  if (shape = some 1 ∨ shape = some 2) ∧ width ≠ none then
    pyMaxStr (pySplit (width.getD ""))
  else if (shape = some 5 ∨ shape = some 6) ∧ height ≠ none then
    pyMaxStr (pySplit (height.getD ""))
  else none

/-- The profile height as the claim words it: the maximum token of the
width/height descriptor under the string order (List.max? over the order on
String). -/
def claimProfileHeight (shape : Option ℤ) (width height : Option String) : Option String :=
  if (shape = some 1 ∨ shape = some 2) ∧ width ≠ none then
    (pySplit (width.getD "")).max?
  else if (shape = some 5 ∨ shape = some 6) ∧ height ≠ none then
    (pySplit (height.getD "")).max?
  else none

lemma lexLt_iff_lex : ∀ u v : List Char, lexLt u v = true ↔ List.Lex (· < ·) u v := by
  intro u
  induction u with
  | nil =>
      intro v
      cases v with
      | nil =>
          constructor
          · intro h; exact absurd h (by simp [lexLt])
          · intro h; cases h
      | cons b bs =>
          constructor
          · intro _; exact List.Lex.nil
          · intro _; rfl
  | cons a as ih =>
      intro v
      cases v with
      | nil =>
          constructor
          · intro h; exact absurd h (by simp [lexLt])
          · intro h; cases h
      | cons b bs =>
          show (if a < b then true else if b < a then false else lexLt as bs) = true ↔ _
          rcases lt_trichotomy a b with hab | rfl | hba
          · rw [if_pos hab]
            exact ⟨fun _ => List.Lex.rel hab, fun _ => rfl⟩
          · rw [if_neg (lt_irrefl a), if_neg (lt_irrefl a)]
            constructor
            · intro h; exact List.Lex.cons ((ih bs).mp h)
            · intro h
              cases h with
              | cons h2 => exact (ih bs).mpr h2
              | rel h2 => exact absurd h2 (lt_irrefl a)
          · rw [if_neg (asymm hba), if_pos hba]
            constructor
            · intro h; exact absurd h (by simp)
            · intro h
              cases h with
              | cons h2 => exact absurd hba (lt_irrefl a)
              | rel h2 => exact absurd h2 (asymm hba)

lemma pyStrLt_iff (s t : String) : pyStrLt s t = true ↔ s < t := by
  rw [String.lt_iff_toList_lt]
  exact lexLt_iff_lex s.data t.data

lemma pyMaxStep_eq_max (c y : String) : (if pyStrLt c y then y else c) = max c y := by
  by_cases h : c < y
  · rw [if_pos ((pyStrLt_iff c y).mpr h), max_eq_right h.le]
  · rw [if_neg (fun hb => h ((pyStrLt_iff c y).mp hb)), max_eq_left (le_of_not_lt h)]

lemma pyMaxStr_eq_max (l : List String) : pyMaxStr l = l.max? := by
  cases l with
  | nil => rfl
  | cons x xs =>
      show some _ = List.max? (x :: xs)
      have hfun : (fun c y => if pyStrLt c y then y else c) = (max : String → String → String) := by
        funext c y
        exact pyMaxStep_eq_max c y
      show some (xs.foldl (fun c y => if pyStrLt c y then y else c) x) = _
      rw [hfun]
      rfl

/-- C9: the recorded profile height agrees with the maximum split token
under the string (lexicographic) order for shapes 1/2 (width) and 5/6
(height) and is null for every other shape; the comparison really is string
comparison, not numeric: on the width descriptor of 9 and 10 the recorded
height is the token 9. -/
theorem profile_height_string_max (shape : Option ℤ) (width height : Option String) :
    profile_height shape width height = claimProfileHeight shape width height ∧
    profile_height (some 1) (some "9 10") none = some "9" ∧
    ("9" : String) ≠ "10" := by
  refine ⟨?_, ?_, by decide⟩
  · unfold profile_height claimProfileHeight
    by_cases h1 : (shape = some 1 ∨ shape = some 2) ∧ width ≠ none
    · rw [if_pos h1, if_pos h1, pyMaxStr_eq_max]
    · rw [if_neg h1, if_neg h1]
      by_cases h2 : (shape = some 5 ∨ shape = some 6) ∧ height ≠ none
      · rw [if_pos h2, if_pos h2, pyMaxStr_eq_max]
      · rw [if_neg h2, if_neg h2]
  · rfl

end ThreeDiStats
